import Mathlib

/-!
Verification of the task-tracking CLI's parsing and query core.

Shallow embedding of `src/task/dates.py`, `src/task/parse.py`,
`src/task/models.py` and `src/task/db.py` (the pure computational core).
Python `datetime.date` values are modelled as year/month/day naturals in the
proleptic Gregorian calendar (Python's year-9999 ceiling is out of scope for
every claim and is not modelled).  Python functions that can raise are
modelled in `Except`; callers that catch `ValueError` pattern-match on it.
The wall clock read by `datetime.date.today()` is passed in explicitly as a
`clock` argument, which makes the code's implicit clock dependence visible
in the types.
-/

namespace TaskCLI

/-- Python `datetime.date`: a year/month/day triple. -/
structure Date where
  year : Nat
  month : Nat
  day : Nat
deriving DecidableEq, Repr

/-- Gregorian leap-year test, as `calendar.isleap` / `monthrange` use it. -/
def isLeap (y : Nat) : Bool :=
  (y % 4 == 0 && y % 100 != 0) || y % 400 == 0

/-- Source `calendar.monthrange(y, m)[1]`: number of days of month `m` in year `y`
(0 for an out-of-range month, which valid dates never carry). -/
def daysInMonth (y m : Nat) : Nat :=
  match m with
  | 1 => 31
  | 2 => if isLeap y then 29 else 28
  | 3 => 31
  | 4 => 30
  | 5 => 31
  | 6 => 30
  | 7 => 31
  | 8 => 31
  | 9 => 30
  | 10 => 31
  | 11 => 30
  | 12 => 31
  | _ => 0

/-- Source `dates.eom`: last calendar day of the month of `dat`. -/
def eom (dat : Date) : Date :=
  ⟨dat.year, dat.month, daysInMonth dat.year dat.month⟩

/-- The dates `datetime.date` accepts (year-9999 ceiling not modelled). -/
def ValidDate (d : Date) : Prop :=
  1 ≤ d.year ∧ 1 ≤ d.month ∧ d.month ≤ 12 ∧ 1 ≤ d.day ∧ d.day ≤ daysInMonth d.year d.month

instance (d : Date) : Decidable (ValidDate d) := by
  unfold ValidDate; infer_instance

/-- Python's `<` on `date` values (chronological, i.e. lexicographic on
year/month/day for valid dates). -/
def DateLt (a b : Date) : Prop :=
  a.year < b.year ∨ (a.year = b.year ∧ (a.month < b.month ∨ (a.month = b.month ∧ a.day < b.day)))

instance (a b : Date) : Decidable (DateLt a b) := by
  unfold DateLt; infer_instance

/-- Number of leap years in `1..y` (proleptic Gregorian). -/
def leapsBefore (y : Nat) : Nat :=
  y / 4 - y / 100 + y / 400

/-- Days of year `y` that precede month `m`. -/
def daysBeforeMonth (y m : Nat) : Nat :=
  let l := if isLeap y then 1 else 0
  match m with
  | 1 => 0
  | 2 => 31
  | 3 => 59 + l
  | 4 => 90 + l
  | 5 => 120 + l
  | 6 => 151 + l
  | 7 => 181 + l
  | 8 => 212 + l
  | 9 => 243 + l
  | 10 => 273 + l
  | 11 => 304 + l
  | 12 => 334 + l
  | _ => 0

/-- Day count of a date (0001-01-01 is day 1), the usual rata-die index.
`timedelta` day arithmetic and weekday computations act on this index. -/
def rataDie (d : Date) : Nat :=
  365 * (d.year - 1) + leapsBefore (d.year - 1) + daysBeforeMonth d.year d.month + d.day

/-- Python `date.weekday()`: Monday = 0 … Sunday = 6. -/
def weekday (d : Date) : Nat :=
  (rataDie d + 6) % 7

/-- The calendar successor of a date (`d + timedelta(days=1)`). -/
def nextDay (d : Date) : Date :=
  if d.day < daysInMonth d.year d.month then ⟨d.year, d.month, d.day + 1⟩
  else if d.month < 12 then ⟨d.year, d.month + 1, 1⟩
  else ⟨d.year + 1, 1, 1⟩

/-- Addition `d + timedelta(days=n)` for a non-negative `n`. -/
def addDays (d : Date) : Nat → Date
  | 0 => d
  | n + 1 => nextDay (addDays d n)

theorem daysInMonth_pos {y m : Nat} (h1 : 1 ≤ m) (h12 : m ≤ 12) :
    1 ≤ daysInMonth y m := by
  interval_cases m <;> cases hl : isLeap y <;> simp [daysInMonth, hl]

theorem daysInMonth_le_31 (y m : Nat) : daysInMonth y m ≤ 31 := by
  unfold daysInMonth
  split <;> (try split) <;> omega

theorem validDate_nextDay {d : Date} (h : ValidDate d) : ValidDate (nextDay d) := by
  obtain ⟨hy, hm1, hm12, hd1, hd2⟩ := h
  unfold nextDay
  split
  · refine ⟨?_, ?_, ?_, ?_, ?_⟩ <;> dsimp only <;> omega
  · split
    · refine ⟨?_, ?_, ?_, ?_, ?_⟩ <;> dsimp only
      · omega
      · omega
      · omega
      · omega
      · exact daysInMonth_pos (by omega) (by omega)
    · refine ⟨?_, ?_, ?_, ?_, ?_⟩ <;> dsimp only <;> first | omega | simp [daysInMonth]

theorem daysBeforeMonth_step {y m : Nat} (h1 : 1 ≤ m) (h11 : m ≤ 11) :
    daysBeforeMonth y (m + 1) = daysBeforeMonth y m + daysInMonth y m := by
  interval_cases m <;> cases hl : isLeap y <;> simp [daysBeforeMonth, daysInMonth, hl]

theorem leapsBefore_step {y : Nat} (h : 1 ≤ y) :
    leapsBefore y = leapsBefore (y - 1) + (if isLeap y then 1 else 0) := by
  obtain ⟨z, rfl⟩ : ∃ z, y = z + 1 := ⟨y - 1, by omega⟩
  simp only [Nat.add_sub_cancel, leapsBefore, isLeap]
  have h4 : (z + 1) / 4 = z / 4 + if 4 ∣ z + 1 then 1 else 0 := Nat.succ_div z 4
  have h100 : (z + 1) / 100 = z / 100 + if 100 ∣ z + 1 then 1 else 0 := Nat.succ_div z 100
  have h400 : (z + 1) / 400 = z / 400 + if 400 ∣ z + 1 then 1 else 0 := Nat.succ_div z 400
  have hle : z / 100 ≤ z / 4 := Nat.div_le_div_left (by omega) (by omega)
  rw [h4, h100, h400]
  split_ifs <;> simp_all <;> omega

theorem rataDie_nextDay {d : Date} (h : ValidDate d) :
    rataDie (nextDay d) = rataDie d + 1 := by
  obtain ⟨hy, hm1, hm12, hd1, hd2⟩ := h
  unfold nextDay
  split
  · simp [rataDie]; omega
  · rename_i hday
    have hde : d.day = daysInMonth d.year d.month := by omega
    split
    · rename_i hmon
      have hstep := daysBeforeMonth_step (y := d.year) hm1 (by omega)
      simp [rataDie]
      omega
    · have hm : d.month = 12 := by omega
      have h31 : daysInMonth d.year 12 = 31 := by simp [daysInMonth]
      have hlb := leapsBefore_step (y := d.year) hy
      simp [rataDie, daysBeforeMonth, hm]
      have hdb : daysBeforeMonth d.year 12 = 334 + (if isLeap d.year then 1 else 0) := by
        simp [daysBeforeMonth]
      rw [hm, h31] at hde
      split_ifs at hlb hdb ⊢ <;> omega

theorem weekday_lt_7 (d : Date) : weekday d < 7 := by
  unfold weekday; omega

theorem weekday_nextDay {d : Date} (h : ValidDate d) :
    weekday (nextDay d) = (weekday d + 1) % 7 := by
  unfold weekday
  rw [rataDie_nextDay h]
  omega

theorem validDate_addDays {d : Date} (h : ValidDate d) (n : Nat) :
    ValidDate (addDays d n) := by
  induction n with
  | zero => exact h
  | succ n ih => exact validDate_nextDay ih

theorem weekday_addDays {d : Date} (h : ValidDate d) (n : Nat) :
    weekday (addDays d n) = (weekday d + n) % 7 := by
  induction n with
  | zero =>
    have := weekday_lt_7 d
    simp [addDays]
    omega
  | succ n ih =>
    have := weekday_nextDay (validDate_addDays h n)
    simp only [addDays, this, ih]
    omega

theorem dateLt_nextDay (d : Date) : DateLt d (nextDay d) := by
  unfold nextDay DateLt
  split
  · right; exact ⟨rfl, Or.inr ⟨rfl, by show d.day < d.day + 1; omega⟩⟩
  · split
    · right; exact ⟨rfl, Or.inl (by show d.month < d.month + 1; omega)⟩
    · left; show d.year < d.year + 1; omega

theorem dateLt_trans {a b c : Date} (h1 : DateLt a b) (h2 : DateLt b c) : DateLt a c := by
  unfold DateLt at *
  rcases h1 with h1 | ⟨hy1, h1⟩ <;> rcases h2 with h2 | ⟨hy2, h2⟩
  · left; omega
  · left; omega
  · left; omega
  · right
    refine ⟨by omega, ?_⟩
    rcases h1 with h1 | ⟨hm1, h1⟩ <;> rcases h2 with h2 | ⟨hm2, h2⟩
    · left; omega
    · left; omega
    · left; omega
    · right; exact ⟨by omega, by omega⟩

theorem dateLt_addDays (d : Date) {n : Nat} (h : 1 ≤ n) : DateLt d (addDays d n) := by
  induction n with
  | zero => omega
  | succ n ih =>
    by_cases hn : 1 ≤ n
    · exact dateLt_trans (ih hn) (dateLt_nextDay (addDays d n))
    · have : n = 0 := by omega
      subst this
      exact dateLt_nextDay d

theorem dateLt_ne {a b : Date} (h : DateLt a b) : a ≠ b := by
  intro he
  subst he
  unfold DateLt at h
  omega

/-!
Python string built-ins used by the parser, modelled on the character
fragment the claims need.  Python's `str.isdigit` is true for every
character with Unicode property `Numeric_Type=Digit`, which strictly
contains the decimal digits `int()` accepts: the superscript digits below
are `isdigit`-true yet rejected by `int()` with a `ValueError`.  The model
restricts the non-decimal `isdigit` characters to the superscripts (other
such characters behave the same way and add nothing to the claims).
-/

/-- Superscript digit characters: `str.isdigit`-true, `int()`-rejected. -/
def superscriptDigits : List Char :=
  ['⁰', '¹', '²', '³', '⁴', '⁵', '⁶', '⁷', '⁸', '⁹']

/-- Python `ch.isdigit()` on the modelled character fragment. -/
def pyCharIsdigit (c : Char) : Bool :=
  c.isDigit || superscriptDigits.contains c

/-- Python `s.isdigit()`: non-empty and all characters digit-classified. -/
def pyStrIsdigit (s : String) : Bool :=
  !s.isEmpty && s.toList.all pyCharIsdigit

/-- Value of a string of decimal digits. -/
def digitsVal (l : List Char) : Nat :=
  l.foldl (fun a c => 10 * a + (c.toNat - 48)) 0

/-- Python `int(s)` restricted to unsigned literals: succeeds exactly on
non-empty strings of decimal digits (category `Nd`; the model's `Nd`
fragment is ASCII `0`-`9`), raises `ValueError` otherwise.  `extract_ids`
only calls it on `isdigit`-filtered tokens, so sign/whitespace handling is
irrelevant there. -/
def pyInt (s : String) : Except String Int :=
  if !s.isEmpty && s.toList.all Char.isDigit then Except.ok (digitsVal s.toList : Nat)
  else Except.error "ValueError"

/-- The single-quote character (written via its code point). -/
def singleQuote : Char := Char.ofNat 39

/-- Python `s.strip(c)` for a one-character strip set: removes every
leading and trailing occurrence of `c`. -/
def pyStripChar (c : Char) (s : String) : String :=
  String.mk (((s.toList.dropWhile (· == c)).reverse.dropWhile (· == c)).reverse)

/-- Python `s.lstrip(c)` for a one-character strip set. -/
def pyLstripChar (c : Char) (s : String) : String :=
  String.mk (s.toList.dropWhile (· == c))

/-- Python `s.split(sep, 1)` for `sep = ":"`: the part before the first
colon and everything after it. -/
def splitFirstColon (s : String) : String × String :=
  let l := s.toList
  (String.mk (l.takeWhile (fun c => c != ':')),
   String.mk ((l.dropWhile (fun c => c != ':')).drop 1))

/-- ASCII lower-casing of one character (the fragment of Python `lower`
the program's token vocabulary exercises). -/
def pyCharLower (c : Char) : Char :=
  if 65 ≤ c.toNat ∧ c.toNat ≤ 90 then Char.ofNat (c.toNat + 32) else c

/-- Python `s.lower()` on the ASCII fragment. -/
def pyLower (s : String) : String :=
  String.mk (s.toList.map pyCharLower)

/-- ASCII upper-casing of one character. -/
def pyCharUpper (c : Char) : Char :=
  if 97 ≤ c.toNat ∧ c.toNat ≤ 122 then Char.ofNat (c.toNat - 32) else c

/-- Python `s.upper()` on the ASCII fragment. -/
def pyUpper (s : String) : String :=
  String.mk (s.toList.map pyCharUpper)

/-- Whitespace characters stripped by Python `s.strip()`. -/
def isWsChar (c : Char) : Bool :=
  c == ' ' || c == '\t' || c == '\n' || c == '\r'

/-- Python `s.strip()`: whitespace removed from both ends. -/
def pyStrip (s : String) : String :=
  String.mk (((s.toList.dropWhile isWsChar).reverse.dropWhile isWsChar).reverse)

/-- Whether the character list `l` starts with `pat`. -/
def listStartsWith : List Char → List Char → Bool
  | [], _ => true
  | _ :: _, [] => false
  | p :: ps, c :: cs => p == c && listStartsWith ps cs

/-- Python `s.startswith(t)`. -/
def pyStartsWith (s t : String) : Bool :=
  listStartsWith t.toList s.toList

/-- Whether `pat` occurs as a contiguous run inside `l`. -/
def listHasSub (pat : List Char) : List Char → Bool
  | [] => pat.isEmpty
  | c :: cs => listStartsWith pat (c :: cs) || listHasSub pat cs

/-- Python `s.endswith(t)` for a one-character suffix `t`. -/
def pyEndsWithChar (c : Char) (s : String) : Bool :=
  match s.toList.getLast? with
  | some x => x == c
  | none => false

/-- Split a character list on every occurrence of `sep`
(Python `s.split(sep)` chunking; used for the `-` of ISO dates). -/
def splitChar (sep : Char) : List Char → List (List Char)
  | [] => [[]]
  | x :: xs =>
    match splitChar sep xs with
    | [] => if x == sep then [[], []] else [[x]]
    | h :: t => if x == sep then [] :: h :: t else (x :: h) :: t

/-- Source `dates.WEEKDAY_MAP`, in source order (Monday = 0). -/
def WEEKDAY_MAP : List (String × Nat) :=
  [("mon", 0), ("monday", 0),
   ("tue", 1), ("tuesday", 1),
   ("wed", 2), ("wednesday", 2),
   ("thu", 3), ("thursday", 3),
   ("fri", 4), ("friday", 4),
   ("sat", 5), ("saturday", 5),
   ("sun", 6), ("sunday", 6)]

/-- Source `dates.MONTH_MAP`, in source order. -/
def MONTH_MAP : List (String × Nat) :=
  [("jan", 1), ("january", 1),
   ("feb", 2), ("february", 2),
   ("mar", 3), ("march", 3),
   ("apr", 4), ("april", 4),
   ("may", 5),
   ("jun", 6), ("june", 6),
   ("jul", 7), ("july", 7),
   ("aug", 8), ("august", 8),
   ("sep", 9), ("september", 9),
   ("oct", 10), ("october", 10),
   ("nov", 11), ("november", 11),
   ("dec", 12), ("december", 12)]

/-- A non-empty all-digits chunk, as a number. -/
def parseNatDigits (l : List Char) : Option Nat :=
  if !l.isEmpty && l.all Char.isDigit then some (digitsVal l) else none

/-- Month-day form such as `"nov6"`: a month name or abbreviation from
`MONTH_MAP` followed by day digits, with the year taken from `default`.
An invalid day raises `ValueError` inside the library, i.e. `none`. -/
def monthDayParse (value : String) (default : Date) : Option Date :=
  MONTH_MAP.findSome? (fun km =>
    if pyStartsWith value km.1 then
      match parseNatDigits (value.toList.drop km.1.toList.length) with
      | some d =>
        if ValidDate ⟨default.year, km.2, d⟩ then some ⟨default.year, km.2, d⟩ else none
      | none => none
    else none)

/-- The external `dateutil.parser.parse(value, default=...)` call at
`dates.py:78`, on the input fragment the program feeds it (documented in
the library and exercised by the repository's tests): full ISO
`YYYY-MM-DD` dates and month-day forms such as `"nov6"`; missing fields
default from `default`; anything else raises `ValueError`, i.e. `none`.
Inputs reaching this call never carry a time-of-day component. -/
def dateutil_parse (value : String) (default : Date) : Option Date :=
  match splitChar '-' value.toList with
  | [ys, ms, ds] =>
    match parseNatDigits ys, parseNatDigits ms, parseNatDigits ds with
    | some y, some m, some d => if ValidDate ⟨y, m, d⟩ then some ⟨y, m, d⟩ else none
    | _, _, _ => none
  | _ => monthDayParse value default

/-- Source `dates.py:76-85`: general calendar parsing with the past-date rollover.
A `ValueError` — from the library call or from `date.replace` producing an
invalid date — is caught and mapped to `None`. -/
def general_parse (value : String) (today : Date) : Option Date :=
  match dateutil_parse value today with
  | none => none
  | some p =>
    if DateLt p today then
      if ValidDate ⟨today.year + 1, p.month, p.day⟩ then some ⟨today.year + 1, p.month, p.day⟩
      else none
    else some p

/-- Source `dates.py:65-67`: how many days ahead the named weekday `w` lies from
`today` (shifting a non-positive difference one week forward). -/
def daysAheadOf (today : Date) (w : Nat) : Nat :=
  let days_ahead : Int := (w : Int) - (weekday today : Int)
  (if days_ahead ≤ 0 then days_ahead + 7 else days_ahead).toNat

/-- Source `dates.parse_date_string(value, base_date)`.  The Python default
`base_date=None` makes the function read the wall clock
(`today = base_date or date.today()`); the embedding passes that clock in
explicitly as `clock`, so the Python call `parse_date_string(v)` is
`parse_date_string clock v none` and `parse_date_string(v, d)` is
`parse_date_string clock v (some d)`. -/
def parse_date_string (clock : Date) (value : String) (base_date : Option Date) : Option Date :=
  if value.toList.isEmpty then none
  else
    let today := base_date.getD clock
    let value_lower := pyStrip (pyLower value)
    if value_lower == "today" then some today
    else if value_lower == "tomorrow" then some (addDays today 1)
    else if value_lower == "eom" then some (eom today)
    else
      match List.lookup value_lower WEEKDAY_MAP with
      | some w => some (addDays today (daysAheadOf today w))
      | none =>
        match List.lookup value_lower MONTH_MAP with
        | some month =>
          let year := if month < today.month then today.year + 1 else today.year
          some (eom ⟨year, month, 1⟩)
        | none => general_parse value_lower today

example : parse_date_string ⟨2025, 1, 1⟩ "today" (some ⟨2025, 11, 3⟩) = some ⟨2025, 11, 3⟩ := by decide
example : parse_date_string ⟨2025, 1, 1⟩ "tomorrow" (some ⟨2025, 11, 3⟩) = some ⟨2025, 11, 4⟩ := by decide
example : parse_date_string ⟨2025, 1, 1⟩ "monday" (some ⟨2025, 11, 3⟩) = some ⟨2025, 11, 10⟩ := by decide
example : parse_date_string ⟨2025, 1, 1⟩ "friday" (some ⟨2025, 11, 3⟩) = some ⟨2025, 11, 7⟩ := by decide
example : parse_date_string ⟨2025, 1, 1⟩ "wed" (some ⟨2025, 11, 3⟩) = some ⟨2025, 11, 5⟩ := by decide
example : parse_date_string ⟨2025, 1, 1⟩ "october" (some ⟨2025, 11, 3⟩) = some ⟨2026, 10, 31⟩ := by decide
example : parse_date_string ⟨2025, 1, 1⟩ "december" (some ⟨2025, 11, 3⟩) = some ⟨2025, 12, 31⟩ := by decide
example : parse_date_string ⟨2025, 1, 1⟩ "february" (some ⟨2024, 1, 15⟩) = some ⟨2024, 2, 29⟩ := by decide
example : parse_date_string ⟨2025, 1, 1⟩ "2025-10-01" (some ⟨2025, 11, 3⟩) = some ⟨2026, 10, 1⟩ := by decide
example : parse_date_string ⟨2025, 1, 1⟩ "2025-12-25" (some ⟨2025, 11, 3⟩) = some ⟨2025, 12, 25⟩ := by decide
example : parse_date_string ⟨2025, 1, 1⟩ "nov1" (some ⟨2025, 11, 3⟩) = some ⟨2026, 11, 1⟩ := by decide
example : parse_date_string ⟨2025, 1, 1⟩ "nov15" (some ⟨2025, 11, 3⟩) = some ⟨2025, 11, 15⟩ := by decide
example : parse_date_string ⟨2025, 1, 1⟩ "eom" (some ⟨2024, 2, 10⟩) = some ⟨2024, 2, 29⟩ := by decide
example : parse_date_string ⟨2025, 1, 1⟩ "not-a-date" (some ⟨2025, 11, 3⟩) = none := by decide
example : parse_date_string ⟨2025, 1, 1⟩ "" (some ⟨2025, 11, 3⟩) = none := by decide

/-!
`src/task/parse.py` and the two record shapes it builds
(`models.Filter`, `models.Modification`).  Pydantic models are embedded as
structures with the same fields and defaults; constructing a model from the
keyword dictionary (`Filter(**filter_dict)`) is `buildFilter`/
`buildModification`, which ignores unknown keys (pydantic's default extra
behaviour) and raises `ValidationError` where pydantic's type coercion
would.  Dictionary values are heterogeneous in Python, so they are tagged
with `PropValue`.
-/

deriving instance DecidableEq for Except

/-- Model of `models.Filter` (defaults as in the pydantic model). -/
structure Filter where
  ids : List Int := []
  title : Option String := none
  project : Option String := none
  priority : Option String := none
  due : Option Date := none
  scheduled : Option Date := none
  depends : Option Int := none
  blocks : Option Int := none
  tags : List String := []
  status : Option String := none
deriving DecidableEq, Repr

/-- Model of `models.Modification` (defaults as in the pydantic model). -/
structure Modification where
  title : Option String := none
  project : Option String := none
  priority : Option String := none
  due : Option Date := none
  scheduled : Option Date := none
  depends : Option (List Int) := none
  blocks : Option (List Int) := none
  tags : Option (List String) := none
deriving DecidableEq, Repr

/-- A value stored in the parser's property dictionary: raw text, a parsed
date, or the `ids`/`tags` lists assigned by `parse_filter`/`parse_modification`. -/
inductive PropValue where
  | s (v : String)
  | d (v : Date)
  | idList (v : List Int)
  | tagList (v : List String)
deriving DecidableEq, Repr

/-- Python dict assignment `m[k] = v`: replaces the value of an existing
key in place, else appends the pair. -/
def dictUpdate (m : List (String × PropValue)) (k : String) (v : PropValue) :
    List (String × PropValue) :=
  if m.any (fun p => p.1 == k) then m.map (fun p => if p.1 == k then (k, v) else p)
  else m ++ [(k, v)]

/-- Token test of `extract_tags` (`parse.py:29`): first character `+` or `-`. -/
def isTagTok (arg : String) : Bool :=
  pyStartsWith arg "+" || pyStartsWith arg "-"

/-- Token test of `extract_properties` (`parse.py:48`): contains `:` and
does not end with `:`. -/
def isPropTok (arg : String) : Bool :=
  arg.toList.contains ':' && !(pyEndsWithChar ':' arg)

/-- Source `parse._normalize_priority` (leading underscore dropped). -/
def normalize_priority (priority : String) : Option String :=
  if pyUpper priority ∈ ["H", "M", "L"] then some (pyUpper priority) else none

/-- Source `parse.extract_tags`: split a section into sigil tokens and the rest,
both in original order. -/
def extract_tags : List String → List String × List String
  | [] => ([], [])
  | arg :: rest =>
    let r := extract_tags rest
    if isTagTok arg then (arg :: r.1, r.2) else (r.1, arg :: r.2)

/-- The key of a property-shaped token, as `extract_properties` computes
it: the part before the first `:`, stripped. -/
def propKeyOf (arg : String) : String :=
  pyStrip (splitFirstColon arg).1

/-- The normalized value of one property-shaped token
(`parse.py:49-58`): the value is split off after the first `:`, stripped
of surrounding single quotes then whitespace, and then normalized in
place: `priority` through `_normalize_priority`, `due`/`scheduled`
through `parse_date_string` (called without a base date, hence on the
wall `clock`); `none` is Python `None`, which drops the token. -/
def propNorm (clock : Date) (arg : String) : Option PropValue :=
  let key := pyStrip (splitFirstColon arg).1
  let value := pyStrip (pyStripChar singleQuote (splitFirstColon arg).2)
  if key = "priority" then (normalize_priority value).map PropValue.s
  else if key = "due" ∨ key = "scheduled" then
    (parse_date_string clock value none).map PropValue.d
  else some (PropValue.s value)

/-- The loop of `parse.extract_properties` (`parse.py:47-63`) with its two
accumulators: a property-shaped token updates the dictionary at its key
unless its normalized value is `None` (`continue`), any other token goes
to the remainder. -/
def extract_properties_loop (clock : Date) (props : List (String × PropValue))
    (remaining : List String) : List String → List (String × PropValue) × List String
  | [] => (props, remaining)
  | arg :: rest =>
    if isPropTok arg then
      match propNorm clock arg with
      | none => extract_properties_loop clock props remaining rest
      | some v => extract_properties_loop clock (dictUpdate props (propKeyOf arg) v) remaining rest
    else extract_properties_loop clock props (remaining ++ [arg]) rest

/-- Source `parse.extract_properties` (clock passed explicitly, see
`parse_date_string`). -/
def extract_properties (clock : Date) (sec : List String) :
    List (String × PropValue) × List String :=
  extract_properties_loop clock [] [] sec

/-- Source `parse.extract_ids`: `int(arg)` over the `isdigit`-filtered tokens
(which raises `ValueError` on digit-classified non-decimal tokens), then
the non-`isdigit` remainder. -/
def extract_ids (sec : List String) : Except String (List Int × List String) :=
  match (sec.filter pyStrIsdigit).mapM pyInt with
  | Except.ok ids => Except.ok (ids, sec.filter (fun a => !pyStrIsdigit a))
  | Except.error e => Except.error e

/-- The generator scan of `parse.separate_sections`: index and original
text of the first token whose lower-cased form is a known command. -/
def findFirstCommand (commands : List String) : List String → Option (Nat × String)
  | [] => none
  | arg :: rest =>
    if pyLower arg ∈ commands then some (0, arg)
    else (findFirstCommand commands rest).map (fun p => (p.1 + 1, p.2))

/-- Source `parse.separate_sections`, returning
`(command, filter_section, modification_section)`. -/
def separate_sections (arglist : List String) (commands : List String) :
    Option String × Option (List String) × Option (List String) :=
  match findFirstCommand commands arglist with
  | none => (none, none, none)
  | some (index, arg) =>
    (some (pyLower arg), some (arglist.take index), some (arglist.drop (index + 1)))

/-- Join `" ".join(remaining)`. -/
def joinSpace : List String → String
  | [] => ""
  | [x] => x
  | x :: y :: rest => x ++ " " ++ joinSpace (y :: rest)

/-- Pydantic's lax string-to-int coercion (`depends`/`blocks` fields):
optional sign followed by decimal digits, else `ValidationError`. -/
def pyIntCoerce (s : String) : Except String Int :=
  match (pyStrip s).toList with
  | '-' :: rest =>
    if !rest.isEmpty && rest.all Char.isDigit then Except.ok (-(digitsVal rest : Nat) : Int)
    else Except.error "ValidationError"
  | '+' :: rest =>
    if !rest.isEmpty && rest.all Char.isDigit then Except.ok (digitsVal rest : Nat)
    else Except.error "ValidationError"
  | l =>
    if !l.isEmpty && l.all Char.isDigit then Except.ok (digitsVal l : Nat)
    else Except.error "ValidationError"

/-- One keyword argument of `Filter(**filter_dict)`: known keys are
validated/coerced as pydantic does, unknown keys are ignored (pydantic
default `extra` behaviour).  Key/shape combinations that the parsing
pipeline cannot produce (e.g. a string under `ids`) fall through to the
ignore case. -/
def buildFilterStep (f : Filter) (e : String × PropValue) : Except String Filter :=
  match e with
  | ("ids", PropValue.idList v) => Except.ok { f with ids := v }
  | ("tags", PropValue.tagList v) => Except.ok { f with tags := v }
  | ("title", PropValue.s v) => Except.ok { f with title := some v }
  | ("project", PropValue.s v) => Except.ok { f with project := some v }
  | ("priority", PropValue.s v) =>
    if v ∈ ["H", "M", "L"] then Except.ok { f with priority := some v }
    else Except.error "ValidationError"
  | ("due", PropValue.d v) => Except.ok { f with due := some v }
  | ("scheduled", PropValue.d v) => Except.ok { f with scheduled := some v }
  | ("depends", PropValue.s v) => (pyIntCoerce v).map (fun n => { f with depends := some n })
  | ("blocks", PropValue.s v) => (pyIntCoerce v).map (fun n => { f with blocks := some n })
  | ("status", PropValue.s v) => Except.ok { f with status := some v }
  | _ => Except.ok f

/-- Constructor call `Filter(**filter_dict)`. -/
def buildFilter (props : List (String × PropValue)) : Except String Filter :=
  props.foldlM buildFilterStep {}

/-- One keyword argument of `Modification(**modification_dict)`.  The
`depends`/`blocks` fields are `list[int] | None`, and pydantic does not
coerce a scalar string to a list, so a CLI-supplied value raises
`ValidationError`. -/
def buildModificationStep (mo : Modification) (e : String × PropValue) :
    Except String Modification :=
  match e with
  | ("tags", PropValue.tagList v) => Except.ok { mo with tags := some v }
  | ("title", PropValue.s v) => Except.ok { mo with title := some v }
  | ("project", PropValue.s v) => Except.ok { mo with project := some v }
  | ("priority", PropValue.s v) =>
    if v ∈ ["H", "M", "L"] then Except.ok { mo with priority := some v }
    else Except.error "ValidationError"
  | ("due", PropValue.d v) => Except.ok { mo with due := some v }
  | ("scheduled", PropValue.d v) => Except.ok { mo with scheduled := some v }
  | ("depends", PropValue.s _) => Except.error "ValidationError"
  | ("blocks", PropValue.s _) => Except.error "ValidationError"
  | _ => Except.ok mo

/-- Constructor call `Modification(**modification_dict)`. -/
def buildModification (props : List (String × PropValue)) : Except String Modification :=
  props.foldlM buildModificationStep {}

/-- Source `parse.parse_filter` (clock passed explicitly, see
`parse_date_string`): ids, then properties, then tags, then the joined
title, assembled into a `Filter`. -/
def parse_filter (clock : Date) (filter_section : List String) : Except String Filter :=
  match extract_ids filter_section with
  | Except.error e => Except.error e
  | Except.ok (ids, remaining) =>
    let pr := extract_properties clock remaining
    let tg := extract_tags pr.2
    let title := joinSpace tg.2
    let fd := dictUpdate pr.1 "ids" (PropValue.idList ids)
    let fd := dictUpdate fd "tags" (PropValue.tagList tg.1)
    let fd := dictUpdate fd "title" (PropValue.s title)
    buildFilter fd

/-- Source `parse.parse_modification`: properties, then tags, then the joined
title, assembled into a `Modification`. -/
def parse_modification (clock : Date) (modification_section : List String) :
    Except String Modification :=
  let pr := extract_properties clock modification_section
  let tg := extract_tags pr.2
  let md := dictUpdate pr.1 "tags" (PropValue.tagList tg.1)
  let md := dictUpdate md "title" (PropValue.s (joinSpace tg.2))
  buildModification md

example : parse_filter ⟨2025, 1, 1⟩ ["1", "2", "project:work", "Buy", "milk"] =
    Except.ok { ids := [1, 2], project := some "work", title := some "Buy milk" } := by decide
example : parse_filter ⟨2025, 1, 1⟩ ["priority:h"] =
    Except.ok { priority := some "H", title := some "" } := by decide
example : parse_filter ⟨2025, 1, 1⟩ ["status:pending"] =
    Except.ok { status := some "pending", title := some "" } := by decide
example : parse_filter ⟨2025, 1, 1⟩ ["depends:5"] =
    Except.ok { depends := some 5, title := some "" } := by decide
example : parse_filter ⟨2025, 1, 1⟩ ["due:not-a-date"] =
    Except.ok { title := some "" } := by decide
example : parse_filter ⟨2025, 1, 1⟩ ["project:"] =
    Except.ok { title := some "project:" } := by decide
example : parse_modification ⟨2025, 11, 3⟩
    ["Buy", "groceries", "project:home", "priority:h", "+urgent", "due:tomorrow"] =
    Except.ok { title := some "Buy groceries", project := some "home", priority := some "H",
                due := some ⟨2025, 11, 4⟩, tags := some ["+urgent"] } := by decide
example : separate_sections ["filter", "add", "Buy", "groceries"] ["add", "show", "done"] =
    (some "add", some ["filter"], some ["Buy", "groceries"]) := by decide
example : separate_sections ["Buy", "groceries"] ["add", "show", "done"] =
    (none, none, none) := by decide
example : separate_sections ["show", "add", "Task"] ["add", "show", "done"] =
    (some "show", some [], some ["add", "Task"]) := by decide
example : extract_ids ["1", "123", "abc", "1a", "-5", "0"] =
    Except.ok ([1, 123, 0], ["abc", "1a", "-5"]) := by decide
example : extract_properties ⟨2025, 1, 1⟩ ["Task", "priority:invalid"] =
    ([], ["Task"]) := by decide
example : extract_properties ⟨2025, 1, 1⟩ ["Task", "project:'work project'"] =
    ([("project", PropValue.s "work project")], ["Task"]) := by decide

/-!
`db.filter_tasks` over an in-memory task collection.  A polars DataFrame
of task rows is a list of `Task` records carrying the columns the function
touches (uuid, timestamps, rank and the unconsulted depends/blocks columns
affect no predicate and are omitted).  As in the repository's test fixture
(`test_db.py`), the `tags` column holds the tags as one space-joined
string, and `pl.col("tags").str.contains(...)` is substring matching on
it; `str.contains` with `literal=False` reads its pattern as a regular
expression, which on the metacharacter-free tag names considered here is
plain substring containment.  Null comparisons (`col == value`,
`is_in`) are null for null cells, so rows with a null cell drop out of an
equality/membership predicate, which the `Option` match below mirrors.
-/

/-- A task row as `filter_tasks` consumes it. -/
structure Task where
  id : Option Int := none
  title : String := ""
  project : Option String := none
  priority : Option String := none
  due : Option Date := none
  scheduled : Option Date := none
  tags : String := ""
  status : String := "pending"
deriving DecidableEq, Repr

/-- Substring containment of `pat` in `s` (the `str.contains` semantics on
regex-metacharacter-free patterns). -/
def strContainsSub (s pat : String) : Bool :=
  listHasSub pat.toList s.toList

/-- Python truthiness of an optional string (`None` and `""` are falsy). -/
def truthyOptStr : Option String → Bool
  | none => false
  | some s => !s.toList.isEmpty

/-- The tag set of a task row: the space-joined `tags` column split back
into words (how the stored collection represents a set of tags). -/
def taskTagSet (t : Task) : List String :=
  (splitChar ' ' t.tags.toList).map String.mk

/-- The conjunction the tag loop of `filter_tasks` (`db.py:136-140`)
applies: every `+` entry a substring of the tags column, every `-` entry
not a substring, other entries ignored. -/
def tagLoopPred (filterTags : List String) (t : Task) : Bool :=
  filterTags.all (fun tag =>
    if pyStartsWith tag "+" then strContainsSub t.tags (pyLstripChar '+' tag)
    else if pyStartsWith tag "-" then !strContainsSub t.tags (pyLstripChar '-' tag)
    else true)

/-- Source `db.filter_tasks`: sequential narrowing by each truthy Filter field,
iterated in field-declaration order.  The loop dispatches on the field
name; `depends`, `blocks` and `status` match no branch and therefore never
filter. -/
def filter_tasks (tasks : List Task) (filter_obj : Filter) : List Task :=
  if tasks.isEmpty then []
  else
    let l := tasks
    let l := if filter_obj.ids.isEmpty then l
      else l.filter (fun t =>
        match t.id with
        | some i => filter_obj.ids.contains i
        | none => false)
    let l := if truthyOptStr filter_obj.title then
        l.filter (fun t =>
          strContainsSub (pyLower t.title) (pyLower (filter_obj.title.getD "")))
      else l
    let l := if truthyOptStr filter_obj.project then
        l.filter (fun t => t.project == filter_obj.project)
      else l
    let l := if truthyOptStr filter_obj.priority then
        l.filter (fun t => t.priority == filter_obj.priority)
      else l
    let l := match filter_obj.due with
      | some v => l.filter (fun t => t.due == some v)
      | none => l
    let l := match filter_obj.scheduled with
      | some v => l.filter (fun t => t.scheduled == some v)
      | none => l
    let l := if filter_obj.tags.isEmpty then l
      else filter_obj.tags.foldl (fun acc tag =>
        if pyStartsWith tag "+" then
          acc.filter (fun t => strContainsSub t.tags (pyLstripChar '+' tag))
        else if pyStartsWith tag "-" then
          acc.filter (fun t => !strContainsSub t.tags (pyLstripChar '-' tag))
        else acc) l
    l

example :
    filter_tasks
      [{ id := some 1, title := "Buy milk", tags := "errand home" },
       { id := some 2, title := "Plan project", tags := "work" },
       { id := some 3, title := "Review notes", tags := "home reading" }]
      { tags := ["+home", "-errand"] } =
    [{ id := some 3, title := "Review notes", tags := "home reading" }] := by decide
example :
    filter_tasks [{ id := some 1, title := "Buy milk", status := "pending" }]
      { status := some "done" } =
    [{ id := some 1, title := "Buy milk", status := "pending" }] := by decide
example :
    filter_tasks
      [{ id := some 1, title := "Buy milk", project := some "home", priority := some "H" },
       { id := some 2, title := "Plan project", project := some "work", priority := some "M" }]
      { project := some "home", priority := some "H" } =
    [{ id := some 1, title := "Buy milk", project := some "home", priority := some "H" }] := by
  decide
example :
    filter_tasks
      [{ id := some 1, title := "Buy milk" }, { id := some 2, title := "Plan project" }]
      { title := some "PLAN" } =
    [{ id := some 2, title := "Plan project" }] := by decide

/-!
Characterizations of the extraction passes as list filters (each pass
splits its input by its token test, preserving relative order).
-/

theorem extract_tags_eq (l : List String) :
    extract_tags l = (l.filter isTagTok, l.filter (fun a => !isTagTok a)) := by
  induction l with
  | nil => rfl
  | cons a rest ih =>
    simp only [extract_tags, ih]
    cases h : isTagTok a <;> simp [List.filter_cons, h]

theorem extract_properties_loop_snd (clock : Date) :
    ∀ (ts : List String) (props : List (String × PropValue)) (rem : List String),
      (extract_properties_loop clock props rem ts).2 =
        rem ++ ts.filter (fun a => !isPropTok a) := by
  intro ts
  induction ts with
  | nil => intro props rem; simp [extract_properties_loop]
  | cons a rest ih =>
    intro props rem
    by_cases h : isPropTok a
    · cases hv : propNorm clock a <;>
        simp [extract_properties_loop, h, hv, ih, List.filter_cons]
    · simp [extract_properties_loop, h, ih, List.filter_cons]

theorem extract_properties_snd (clock : Date) (sec : List String) :
    (extract_properties clock sec).2 = sec.filter (fun a => !isPropTok a) := by
  unfold extract_properties
  rw [extract_properties_loop_snd]
  simp

theorem extract_ids_ok_snd {sec : List String} {ids : List Int} {r : List String}
    (h : extract_ids sec = Except.ok (ids, r)) :
    r = sec.filter (fun a => !pyStrIsdigit a) := by
  unfold extract_ids at h
  cases hm : (sec.filter pyStrIsdigit).mapM pyInt <;> rw [hm] at h
  · cases h
  · injection h with h
    exact (congrArg Prod.snd h).symm

/-- C10: the Query Evaluator never consults the Filter's `depends` and
`blocks` fields — `filter_tasks tasks f` equals `filter_tasks` applied to
`f` with `depends` and `blocks` set to `None`, so filtering by a
dependency or blocking reference has no effect on the result. -/
theorem filter_tasks_ignores_depends_blocks (tasks : List Task) (f : Filter) :
    filter_tasks tasks { f with depends := none, blocks := none } = filter_tasks tasks f := rfl

/-- C2 (code evaluated at the failing input): `filter_tasks` has no branch
for the `status` field, so a Filter with `status = "done"` returns a
collection whose only task has status `"pending"` unchanged, where the
claim requires the empty result. -/
theorem filter_tasks_status_ignored_at_input :
    filter_tasks [{ id := some 1, title := "Buy milk", status := "pending" }]
        { status := some "done" } =
      [{ id := some 1, title := "Buy milk", status := "pending" }] ∧
    ({ id := some 1, title := "Buy milk", status := "pending" } : Task).status ≠ "done" := by
  decide

/-- C5 (code evaluated at the failing input): the token `"²"`
(U+00B2, SUPERSCRIPT TWO) passes Python's `str.isdigit` test, so
`extract_ids` feeds it to `int()`, which raises `ValueError` — the
identifier pass aborts instead of degrading gracefully. -/
theorem extract_ids_raises_on_superscript :
    pyStrIsdigit "²" = true ∧ extract_ids ["²"] = Except.error "ValueError" := by decide

/-- The tag loop of `filter_tasks` is one filter by the conjunction of its
per-entry substring predicates. -/
theorem tags_foldl_eq_filter (filterTags : List String) :
    ∀ l : List Task,
      filterTags.foldl (fun acc tag =>
        if pyStartsWith tag "+" then
          acc.filter (fun t => strContainsSub t.tags (pyLstripChar '+' tag))
        else if pyStartsWith tag "-" then
          acc.filter (fun t => !strContainsSub t.tags (pyLstripChar '-' tag))
        else acc) l = l.filter (tagLoopPred filterTags) := by
  induction filterTags with
  | nil =>
    intro l
    simp only [List.foldl_nil]
    rw [show tagLoopPred [] = fun _ => true from funext fun t => rfl]
    simp
  | cons tag rest ih =>
    intro l
    simp only [List.foldl_cons]
    by_cases h1 : pyStartsWith tag "+"
    · rw [if_pos h1, ih, List.filter_filter]
      congr 1
      funext t
      simp [tagLoopPred, h1, Bool.and_comm]
    · by_cases h2 : pyStartsWith tag "-"
      · rw [if_neg h1, if_pos h2, ih, List.filter_filter]
        congr 1
        funext t
        simp [tagLoopPred, h1, h2, Bool.and_comm]
      · rw [if_neg h1, if_neg h2, ih]
        congr 1
        funext t
        simp [tagLoopPred, h1, h2]

/-- C6 (amended): a task is retained by a tags-only Filter iff, for every
`+` entry, the bare name occurs as a SUBSTRING of the task's space-joined
tags column, and for every `-` entry it does not (polars
`str.contains`), rather than the claimed whole-name set membership. -/
theorem tags_filter_substring (tasks : List Task) (tgs : List String) (t : Task) :
    t ∈ filter_tasks tasks { tags := tgs } ↔ t ∈ tasks ∧ tagLoopPred tgs t = true := by
  unfold filter_tasks
  by_cases he : tasks.isEmpty
  · have : tasks = [] := List.isEmpty_iff.mp he
    subst this
    simp
  · simp only [he, if_false, truthyOptStr]
    by_cases ht : tgs.isEmpty
    · have : tgs = [] := List.isEmpty_iff.mp ht
      subst this
      simp [tagLoopPred]
    · simp [ht, tags_foldl_eq_filter, List.mem_filter]

/-- C6 (counterexample): with filter tags `["+home"]`, a task whose only
tag is `homework` is retained by the code (substring match), although its
tag set does not contain `home` — refuting the claimed
whole-tag-name set-membership semantics. -/
theorem tags_substring_cex :
    filter_tasks [{ id := some 1, title := "hw", tags := "homework" }] { tags := ["+home"] } =
      [{ id := some 1, title := "hw", tags := "homework" }] ∧
    "home" ∉ taskTagSet { id := some 1, title := "hw", tags := "homework" } := by decide

/-- C3 (amended): when the general-calendar branch parses a date strictly
before the reference date, the result is the parsed date with its year
replaced by `reference.year + 1` (a single replacement) — which is one
year after the parsed date only when the parsed year equals the reference
year. -/
theorem rollover_replaces_year (value : String) (today p : Date)
    (h1 : dateutil_parse value today = some p) (h2 : DateLt p today)
    (h3 : ValidDate ⟨today.year + 1, p.month, p.day⟩) :
    general_parse value today = some ⟨today.year + 1, p.month, p.day⟩ := by
  simp only [general_parse, h1]
  rw [if_pos h2, if_pos h3]

theorem rollover_replaces_year_witness :
    dateutil_parse "2025-10-01" ⟨2025, 11, 3⟩ = some ⟨2025, 10, 1⟩ ∧
    DateLt ⟨2025, 10, 1⟩ ⟨2025, 11, 3⟩ ∧
    ValidDate ⟨2026, 10, 1⟩ ∧
    general_parse "2025-10-01" ⟨2025, 11, 3⟩ = some ⟨2026, 10, 1⟩ :=
  ⟨by decide, by decide, by decide,
   rollover_replaces_year "2025-10-01" ⟨2025, 11, 3⟩ ⟨2025, 10, 1⟩ (by decide) (by decide)
     (by decide)⟩

/-- C3 (counterexample): `"2020-01-01"` against reference `2025-11-03`
parses to `2020-01-01`, which is before the reference, yet resolves to
`2026-01-01` — five years after the parsed date, not the claimed exactly
one year (`2021-01-01`). -/
theorem rollover_cex :
    parse_date_string ⟨2025, 1, 1⟩ "2020-01-01" (some ⟨2025, 11, 3⟩) = some ⟨2026, 1, 1⟩ ∧
    dateutil_parse "2020-01-01" ⟨2025, 11, 3⟩ = some ⟨2020, 1, 1⟩ ∧
    DateLt ⟨2020, 1, 1⟩ ⟨2025, 11, 3⟩ ∧
    (⟨2026, 1, 1⟩ : Date) ≠ ⟨2021, 1, 1⟩ := by decide

/-- C7 (amended): in the Filter pipeline, identifier extraction runs
first, then PROPERTY extraction, then tag extraction (the §4.5 order), so
the tokens kept as tags are exactly the non-digit tokens that are NOT
property-shaped and start with `+`/`-`; a `+`/`-` token containing a
non-final `:` is consumed by the property pass instead. -/
theorem tag_pass_after_property_pass (clock : Date) (s : List String) :
    (extract_tags (extract_properties clock (s.filter (fun a => !pyStrIsdigit a))).2).1 =
      ((s.filter (fun a => !pyStrIsdigit a)).filter (fun a => !isPropTok a)).filter isTagTok := by
  rw [extract_tags_eq, extract_properties_snd]

/-- C7 (counterexample): the token `"+a:b"` starts with `+`, so the claim
requires it to be classified as the tag `"+a:b"`; the code instead
consumes it in the property pass (key `"+a"`), and the parsed Filter's
tag list is empty. -/
theorem tag_pass_order_cex :
    isTagTok "+a:b" = true ∧
    extract_properties ⟨2025, 1, 1⟩ ["+a:b"] = ([("+a", PropValue.s "b")], []) ∧
    parse_filter ⟨2025, 1, 1⟩ ["+a:b"] = Except.ok { title := some "" } := by decide

/-- C1 (amended): classification is a partition — every token of the
section lands in exactly one pass (digit tokens, PROPERTY-SHAPED tokens
including those whose normalized value is dropped from the mapping, sigil
tokens, free text).  The original claim fails only because a
property-shaped token whose value normalizes to `None` appears in no
output. -/
theorem classifier_partition (clock : Date) (s : List String) (ids : List Int)
    (r1 : List String) (h : extract_ids s = Except.ok (ids, r1)) :
    List.Perm s (s.filter pyStrIsdigit ++ r1.filter isPropTok ++
      (extract_properties clock r1).2.filter isTagTok ++
      (extract_tags (extract_properties clock r1).2).2) := by
  have hr1 : r1 = s.filter (fun a => !pyStrIsdigit a) := extract_ids_ok_snd h
  have h3 : (extract_tags (extract_properties clock r1).2).2 =
      (extract_properties clock r1).2.filter (fun a => !isTagTok a) := by
    rw [extract_tags_eq]
  rw [h3, extract_properties_snd, hr1]
  rw [List.append_assoc, List.append_assoc]
  refine (List.filter_append_perm pyStrIsdigit s).symm.trans (List.Perm.append_left _ ?_)
  refine (List.filter_append_perm isPropTok _).symm.trans (List.Perm.append_left _ ?_)
  exact (List.filter_append_perm isTagTok _).symm

theorem classifier_partition_witness :
    extract_ids ["1", "+t", "k:v", "w"] = Except.ok ([1], ["+t", "k:v", "w"]) ∧
    List.Perm ["1", "+t", "k:v", "w"]
      (["1", "+t", "k:v", "w"].filter pyStrIsdigit ++
        ["+t", "k:v", "w"].filter isPropTok ++
        (extract_properties ⟨2025, 1, 1⟩ ["+t", "k:v", "w"]).2.filter isTagTok ++
        (extract_tags (extract_properties ⟨2025, 1, 1⟩ ["+t", "k:v", "w"]).2).2) :=
  ⟨by decide, classifier_partition ⟨2025, 1, 1⟩ ["1", "+t", "k:v", "w"] [1]
    ["+t", "k:v", "w"] (by decide)⟩

/-- C1 (counterexample): the token `"priority:zz"` is property-shaped but
its value fails priority normalization, so it is dropped from the mapping
AND from the remainder: every output of the classifier (and of
`parse_filter`) is empty, and the input is not a permutation of the
concatenated outputs — the token appears in no category. -/
theorem classifier_partition_cex :
    extract_properties ⟨2025, 1, 1⟩ ["priority:zz"] = ([], []) ∧
    parse_filter ⟨2025, 1, 1⟩ ["priority:zz"] = Except.ok { title := some "" } ∧
    ¬ List.Perm ["priority:zz"] [] := by decide

theorem propNorm_clock_indep (c1 c2 : Date) (arg : String)
    (hd : propKeyOf arg ≠ "due") (hs : propKeyOf arg ≠ "scheduled") :
    propNorm c1 arg = propNorm c2 arg := by
  unfold propKeyOf at hd hs
  simp only [propNorm]
  split_ifs with h1 h2
  · rfl
  · rcases h2 with h2 | h2
    · exact absurd h2 hd
    · exact absurd h2 hs
  · rfl

theorem extract_properties_loop_clock (c1 c2 : Date) :
    ∀ (ts : List String) (props : List (String × PropValue)) (rem : List String),
      (∀ t ∈ ts, isPropTok t = true → propKeyOf t ≠ "due" ∧ propKeyOf t ≠ "scheduled") →
      extract_properties_loop c1 props rem ts = extract_properties_loop c2 props rem ts := by
  intro ts
  induction ts with
  | nil => intro _ _ _; rfl
  | cons a rest ih =>
    intro props rem h
    have hrest : ∀ t ∈ rest, isPropTok t = true →
        propKeyOf t ≠ "due" ∧ propKeyOf t ≠ "scheduled" :=
      fun t ht => h t (List.mem_cons_of_mem _ ht)
    by_cases hp : isPropTok a
    · have hks := h a (List.mem_cons_self _ _) hp
      have hno : propNorm c1 a = propNorm c2 a := propNorm_clock_indep c1 c2 a hks.1 hks.2
      cases hv : propNorm c2 a <;>
        simp [extract_properties_loop, hp, hno, hv, ih _ _ hrest]
    · simp [extract_properties_loop, hp, ih _ _ hrest]

theorem extract_properties_clock (c1 c2 : Date) (sec : List String)
    (h : ∀ t ∈ sec, isPropTok t = true → propKeyOf t ≠ "due" ∧ propKeyOf t ≠ "scheduled") :
    extract_properties c1 sec = extract_properties c2 sec :=
  extract_properties_loop_clock c1 c2 sec [] [] h

/-- C4 (amended): the Date Resolver is clock-independent whenever an
explicit reference date is supplied, and the builders are pure functions
of (tokens, wall-clock date); their results are independent of the clock
whenever the section carries no `due:`/`scheduled:` property token.  The
original claim fails because the resolver's reference parameter is
OPTIONAL — `base_date or date.today()` reads the wall clock when it is
omitted, which is exactly how the builders call it. -/
theorem resolver_and_builders_clock (c1 c2 : Date) (v : String) (b : Date) (s : List String)
    (h : ∀ t ∈ s, isPropTok t = true → propKeyOf t ≠ "due" ∧ propKeyOf t ≠ "scheduled") :
    parse_date_string c1 v (some b) = parse_date_string c2 v (some b) ∧
    parse_filter c1 s = parse_filter c2 s ∧
    parse_modification c1 s = parse_modification c2 s := by
  refine ⟨rfl, ?_, ?_⟩
  · unfold parse_filter
    cases hid : extract_ids s with
    | error e => rfl
    | ok pr =>
      obtain ⟨ids, remaining⟩ := pr
      have hrem : ∀ t ∈ remaining, isPropTok t = true →
          propKeyOf t ≠ "due" ∧ propKeyOf t ≠ "scheduled" := by
        intro t ht hpt
        have hr := extract_ids_ok_snd hid
        rw [hr] at ht
        exact h t (List.mem_filter.mp ht).1 hpt
      dsimp only
      rw [extract_properties_clock c1 c2 remaining hrem]
  · unfold parse_modification
    rw [extract_properties_clock c1 c2 s h]

theorem resolver_and_builders_clock_witness :
    parse_date_string ⟨2025, 1, 1⟩ "friday" (some ⟨2025, 11, 3⟩) =
      parse_date_string ⟨2030, 6, 6⟩ "friday" (some ⟨2025, 11, 3⟩) ∧
    parse_filter ⟨2025, 1, 1⟩ ["project:home", "+urgent"] =
      parse_filter ⟨2030, 6, 6⟩ ["project:home", "+urgent"] ∧
    parse_modification ⟨2025, 1, 1⟩ ["project:home", "+urgent"] =
      parse_modification ⟨2030, 6, 6⟩ ["project:home", "+urgent"] :=
  resolver_and_builders_clock ⟨2025, 1, 1⟩ ⟨2030, 6, 6⟩ "friday" ⟨2025, 11, 3⟩
    ["project:home", "+urgent"] (by decide)

/-- C4 (counterexample): `parse_filter` on the same tokens `["due:today"]`
run under two different wall-clock dates produces two different Filters,
and the resolver called without a base date follows the clock — two runs
of the builders on the same inputs are NOT equal regardless of when they
run. -/
theorem builders_clock_cex :
    parse_filter ⟨2025, 1, 1⟩ ["due:today"] ≠ parse_filter ⟨2025, 1, 2⟩ ["due:today"] ∧
    parse_filter ⟨2025, 1, 1⟩ ["due:today"] =
      Except.ok { due := some ⟨2025, 1, 1⟩, title := some "" } ∧
    parse_filter ⟨2025, 1, 2⟩ ["due:today"] =
      Except.ok { due := some ⟨2025, 1, 2⟩, title := some "" } ∧
    parse_date_string ⟨2025, 1, 1⟩ "today" none ≠ parse_date_string ⟨2025, 1, 2⟩ "today" none := by
  decide

theorem findFirstCommand_none {commands : List String} :
    ∀ {l : List String}, (∀ t ∈ l, pyLower t ∉ commands) →
      findFirstCommand commands l = none := by
  intro l
  induction l with
  | nil => intro _; rfl
  | cons a rest ih =>
    intro h
    simp only [findFirstCommand, if_neg (h a (List.mem_cons_self _ _))]
    rw [ih fun t ht => h t (List.mem_cons_of_mem _ ht)]
    rfl

theorem findFirstCommand_at {commands : List String} :
    ∀ {l : List String} (i : Nat) (hi : i < l.length),
      pyLower (l.get ⟨i, hi⟩) ∈ commands →
      (∀ j (hj : j < i), pyLower (l.get ⟨j, Nat.lt_trans hj hi⟩) ∉ commands) →
      findFirstCommand commands l = some (i, l.get ⟨i, hi⟩) := by
  intro l
  induction l with
  | nil => intro i hi; simp at hi
  | cons a rest ih =>
    intro i hi hmem hprev
    cases i with
    | zero =>
      simp only [List.get] at hmem ⊢
      simp only [findFirstCommand, if_pos hmem]
    | succ n =>
      have ha : pyLower a ∉ commands := by
        have := hprev 0 (Nat.succ_pos n)
        simpa using this
      simp only [findFirstCommand, if_neg ha]
      rw [ih n (by simpa using hi) (by simpa using hmem)
        (fun j hj => by simpa using hprev (j + 1) (by omega))]
      simp [List.get]

/-- C9: the Argument Segmenter returns the all-`None` sentinel (a normal
return) when no token lower-cases to a known command, and otherwise splits
at the first matching token at index `i` into
(command, tokens before `i`, tokens after `i`), leaving later command-like
tokens untouched inside the returned remainder. -/
theorem segmenter_spec (arglist commands : List String) :
    ((∀ t ∈ arglist, pyLower t ∉ commands) →
      separate_sections arglist commands = (none, none, none)) ∧
    (∀ (i : Nat) (hi : i < arglist.length),
      pyLower (arglist.get ⟨i, hi⟩) ∈ commands →
      (∀ j (hj : j < i), pyLower (arglist.get ⟨j, Nat.lt_trans hj hi⟩) ∉ commands) →
      separate_sections arglist commands =
        (some (pyLower (arglist.get ⟨i, hi⟩)), some (arglist.take i),
         some (arglist.drop (i + 1)))) := by
  constructor
  · intro h
    unfold separate_sections
    rw [findFirstCommand_none h]
  · intro i hi hmem hprev
    unfold separate_sections
    rw [findFirstCommand_at i hi hmem hprev]

theorem segmenter_spec_witness :
    separate_sections ["filter", "add", "Buy"] ["add", "show"] =
      (some "add", some ["filter"], some ["Buy"]) ∧
    separate_sections ["Buy", "groceries"] ["add", "show"] = (none, none, none) := by
  constructor
  · exact (segmenter_spec ["filter", "add", "Buy"] ["add", "show"]).2 1 (by decide)
      (by decide) (by
        intro j hj
        interval_cases j
        show pyLower "filter" ∉ ["add", "show"]
        decide)
  · exact (segmenter_spec ["Buy", "groceries"] ["add", "show"]).1 (by decide)

theorem daysAheadOf_eq (today : Date) (w : Nat) :
    daysAheadOf today w =
      if w ≤ weekday today then 7 + w - weekday today else w - weekday today := by
  simp only [daysAheadOf]
  split_ifs <;> omega

theorem weekday_resolution_arith (today : Date) (h : ValidDate today) (w : Nat) (hw : w < 7) :
    1 ≤ daysAheadOf today w ∧ daysAheadOf today w ≤ 7 ∧
    weekday (addDays today (daysAheadOf today w)) = w ∧
    (∀ j, 1 ≤ j → j < daysAheadOf today w → weekday (addDays today j) ≠ w) ∧
    (weekday today = w → daysAheadOf today w = 7) := by
  have hwd := weekday_lt_7 today
  have hk := daysAheadOf_eq today w
  refine ⟨?_, ?_, ?_, ?_, ?_⟩
  · rw [hk]; split_ifs <;> omega
  · rw [hk]; split_ifs <;> omega
  · rw [weekday_addDays h, hk]; split_ifs <;> omega
  · intro j h1 h2
    rw [weekday_addDays h]
    rw [hk] at h2
    split_ifs at h2 <;> omega
  · intro he; rw [hk]; split_ifs <;> omega

theorem parse_weekday_eq (clock today : Date) (name : String) (w : Nat)
    (h0 : name.toList.isEmpty = false)
    (h1 : pyStrip (pyLower name) = name)
    (h2 : (name == "today") = false)
    (h3 : (name == "tomorrow") = false)
    (h4 : (name == "eom") = false)
    (h5 : List.lookup name WEEKDAY_MAP = some w) :
    parse_date_string clock name (some today) = some (addDays today (daysAheadOf today w)) := by
  have h0d : ¬ name.data = [] := by
    intro he
    have : name.toList.isEmpty = true := by
      show name.data.isEmpty = true
      rw [he]
      rfl
    rw [this] at h0
    cases h0
  simp [parse_date_string, h0d, Option.getD_some, h1, h2, h3, h4, h5]

theorem weekday_resolution_core (clock today : Date) (hv : ValidDate today) (name : String)
    (w : Nat) (hw : w < 7)
    (h0 : name.toList.isEmpty = false)
    (h1 : pyStrip (pyLower name) = name)
    (h2 : (name == "today") = false)
    (h3 : (name == "tomorrow") = false)
    (h4 : (name == "eom") = false)
    (h5 : List.lookup name WEEKDAY_MAP = some w) :
    ∃ k, parse_date_string clock name (some today) = some (addDays today k) ∧
      1 ≤ k ∧ k ≤ 7 ∧ weekday (addDays today k) = w ∧
      DateLt today (addDays today k) ∧
      (∀ j, 1 ≤ j → j < k → weekday (addDays today j) ≠ w) ∧
      (weekday today = w → k = 7) := by
  obtain ⟨a1, a2, a3, a4, a5⟩ := weekday_resolution_arith today hv w hw
  exact ⟨daysAheadOf today w, parse_weekday_eq clock today name w h0 h1 h2 h3 h4 h5,
    a1, a2, a3, dateLt_addDays today a1, a4, a5⟩

/-- C8: for every weekday name or 3-letter abbreviation `name` mapping to
weekday number `w` and every valid reference date, the resolver lands on
the next occurrence of that weekday STRICTLY after the reference: the
result is the reference plus `k` days with `1 ≤ k ≤ 7`, its weekday is
`w`, no earlier positive offset below `k` hits `w`, and naming the
reference date's own weekday yields exactly `k = 7`. -/
theorem weekday_resolution (clock today : Date) (hv : ValidDate today) (name : String)
    (w : Nat) (hmem : (name, w) ∈ WEEKDAY_MAP) :
    ∃ k, parse_date_string clock name (some today) = some (addDays today k) ∧
      1 ≤ k ∧ k ≤ 7 ∧ weekday (addDays today k) = w ∧
      DateLt today (addDays today k) ∧
      (∀ j, 1 ≤ j → j < k → weekday (addDays today j) ≠ w) ∧
      (weekday today = w → k = 7) := by
  have hall : ∀ p ∈ WEEKDAY_MAP, p.2 < 7 ∧ p.1.toList.isEmpty = false ∧
      pyStrip (pyLower p.1) = p.1 ∧ (p.1 == "today") = false ∧
      (p.1 == "tomorrow") = false ∧ (p.1 == "eom") = false ∧
      List.lookup p.1 WEEKDAY_MAP = some p.2 := by decide
  obtain ⟨hw, h0, h1, h2, h3, h4, h5⟩ := hall (name, w) hmem
  exact weekday_resolution_core clock today hv name w hw h0 h1 h2 h3 h4 h5

theorem weekday_resolution_witness :
    ValidDate ⟨2025, 11, 3⟩ ∧ ("monday", 0) ∈ WEEKDAY_MAP ∧
    ∃ k, parse_date_string ⟨2025, 1, 1⟩ "monday" (some ⟨2025, 11, 3⟩) =
        some (addDays ⟨2025, 11, 3⟩ k) ∧
      1 ≤ k ∧ k ≤ 7 ∧ weekday (addDays ⟨2025, 11, 3⟩ k) = 0 ∧
      DateLt ⟨2025, 11, 3⟩ (addDays ⟨2025, 11, 3⟩ k) ∧
      (∀ j, 1 ≤ j → j < k → weekday (addDays ⟨2025, 11, 3⟩ j) ≠ 0) ∧
      (weekday ⟨2025, 11, 3⟩ = 0 → k = 7) :=
  ⟨by decide, by decide,
   weekday_resolution ⟨2025, 1, 1⟩ ⟨2025, 11, 3⟩ (by decide) "monday" 0 (by decide)⟩

end TaskCLI
